import Mathlib

/-!
Verification of the location-extraction engine of the OpenGuessr enhanced
userscript (src/openguessr_enhanced_2026.user.js).

The engine is embedded shallowly: JavaScript numbers are modelled as `JSNum`
(an exact rational, a signed infinity, or NaN), strings as `String`/`List Char`,
and each of the source functions (`Utils.parseCoordinates`,
`LocationExtractor.extractFromIframe`, the fetch and XMLHttpRequest
interceptors, `LocationExtractor.getCurrentLocation`) is translated into a
Lean function over that model.  The regular expressions of the source
(`/!3d(-?[\d.]+)!4d(-?[\d.]+)/` and `/[-]?\d+\.\d+,\s*[-]?\d+\.\d+/g`) are
translated into explicit leftmost-match scanners; because the character
classes involved cannot overlap with the literal delimiters that follow them,
greedy maximal-munch scanning coincides with backtracking regex semantics.
-/

/-! ## JavaScript numbers and primitive string operations -/

/-- A JavaScript number as the engine can observe it: an exact finite value
(decimal literals are modelled exactly, as rationals), a signed infinity
(`parseFloat("Infinity")`), or NaN. -/
inductive JSNum where
  | fin (q : ℚ)
  | inf (pos : Bool)
  | nan
deriving DecidableEq

/-- `isNaN(x)` of JavaScript. -/
def JSNum.isNaN : JSNum → Bool
  | .nan => true
  | _ => false

/-- The JavaScript comparison `x <= q` for a numeric literal bound `q`. -/
def JSNum.leQ : JSNum → ℚ → Bool
  | .fin a, q => decide (a ≤ q)
  | .inf pos, _ => !pos
  | .nan, _ => false

/-- The JavaScript comparison `x >= q` for a numeric literal bound `q`. -/
def JSNum.geQ : JSNum → ℚ → Bool
  | .fin a, q => decide (q ≤ a)
  | .inf pos, _ => pos
  | .nan, _ => false

/-- ASCII whitespace, as removed by `String.prototype.trim` and skipped by
`parseFloat`, and matched by the regex class `\s` (ASCII part). -/
def isWS (c : Char) : Bool :=
  c = ' ' || c = '\t' || c = '\n' || c = '\r' || c = '\x0b' || c = '\x0c'

/-- `String.prototype.trim` on a character list. -/
def trimL (cs : List Char) : List Char :=
  ((cs.dropWhile isWS).reverse.dropWhile isWS).reverse

/-- Value of a digit string (most significant first). -/
def digitsToNat (ds : List Char) : Nat :=
  ds.foldl (fun n c => 10 * n + (c.toNat - 48)) 0

/-- The optional exponent part accepted by `parseFloat` after the mantissa:
`[eE][+-]?digits`; if the digits are missing the exponent is not part of the
longest valid prefix and contributes 0. -/
def parseExp (cs : List Char) : Int :=
  match cs with
  | 'e' :: rest =>
    match rest with
    | '-' :: r => (if r.takeWhile Char.isDigit = [] then 0 else -(digitsToNat (r.takeWhile Char.isDigit) : Int))
    | '+' :: r => (if r.takeWhile Char.isDigit = [] then 0 else (digitsToNat (r.takeWhile Char.isDigit) : Int))
    | r => (if r.takeWhile Char.isDigit = [] then 0 else (digitsToNat (r.takeWhile Char.isDigit) : Int))
  | 'E' :: rest =>
    match rest with
    | '-' :: r => (if r.takeWhile Char.isDigit = [] then 0 else -(digitsToNat (r.takeWhile Char.isDigit) : Int))
    | '+' :: r => (if r.takeWhile Char.isDigit = [] then 0 else (digitsToNat (r.takeWhile Char.isDigit) : Int))
    | r => (if r.takeWhile Char.isDigit = [] then 0 else (digitsToNat (r.takeWhile Char.isDigit) : Int))
  | _ => 0

/-- The body of `parseFloat` after the optional sign has been consumed:
`Infinity`, or a mantissa `digits`, `digits.digits`, `.digits`, `digits.`
followed by an optional exponent; NaN when no digit is found. -/
def parseFloatCore (neg : Bool) (cs : List Char) : JSNum :=
  if cs.take 8 = ['I', 'n', 'f', 'i', 'n', 'i', 't', 'y'] then
    .inf (!neg)
  else
    let intPart := cs.takeWhile Char.isDigit
    let rest1 := cs.dropWhile Char.isDigit
    let fracPart :=
      match rest1 with
      | '.' :: afterDot => afterDot.takeWhile Char.isDigit
      | _ => []
    let rest2 :=
      match rest1 with
      | '.' :: afterDot => afterDot.dropWhile Char.isDigit
      | _ => rest1
    if intPart = [] && fracPart = [] then
      .nan
    else
      let e := parseExp rest2
      let v : ℚ := mkRat
        (((digitsToNat intPart * 10 ^ fracPart.length + digitsToNat fracPart)
            * 10 ^ e.toNat : Nat) : Int)
        (10 ^ fracPart.length * 10 ^ (-e).toNat)
      .fin (if neg then -v else v)

/-- JavaScript `parseFloat`: skip leading whitespace, take the longest prefix
that is a valid signed decimal literal; NaN when no prefix parses. -/
def parseFloatL (cs0 : List Char) : JSNum :=
  match cs0.dropWhile isWS with
  | '-' :: rest => parseFloatCore true rest
  | '+' :: rest => parseFloatCore false rest
  | cs1 => parseFloatCore false cs1

/-- Split a character list at every comma, like `String.prototype.split(',')`
(an empty input yields one empty part). -/
def splitComma : List Char → List (List Char)
  | [] => [[]]
  | ',' :: rest => [] :: splitComma rest
  | c :: rest =>
    match splitComma rest with
    | [] => [[c]]
    | p :: ps => (c :: p) :: ps

/-! ## Utils.parseCoordinates -/

/-- `Utils.parseCoordinates`: null on a falsy (empty) string; otherwise split
on commas, `parseFloat` each trimmed part, and return the pair exactly when
there are two parts and neither is NaN.  No range validation. -/
def parseCoordinates (s : String) : Option (JSNum × JSNum) :=
  if s = "" then none
  else
    match (splitComma s.toList).map (fun p => parseFloatL (trimL p)) with
    | [a, b] => if a.isNaN || b.isNaN then none else some (a, b)
    | _ => none

/-! ## The passive iframe scanner (LocationExtractor.extractFromIframe) -/

/-- A coordinate record as built by the engine: `{lat, lng, source}`. -/
structure Coord where
  lat : JSNum
  lng : JSNum
  source : String
deriving DecidableEq

/-- Character class `[\d.]` of the pb regex. -/
def isDigitDot (c : Char) : Bool := c.isDigit || c = '.'

/-- The optional sign `-?` of the regexes: consume a leading dash if present,
returning (consumed sign characters, remainder). -/
def signSplit (cs : List Char) : List Char × List Char :=
  match cs with
  | '-' :: r => (['-'], r)
  | _ => ([], cs)

/-- Attempt to match `!3d(-?[\d.]+)!4d(-?[\d.]+)` at the start of the list,
returning the two capture groups.  The greedy `[\d.]+` runs are maximal;
no backtracking can succeed because `!` is not in the class. -/
def pbMatchAt (cs : List Char) : Option (List Char × List Char) :=
  match cs with
  | '!' :: '3' :: 'd' :: rest =>
    let p1 := signSplit rest
    let d1 := p1.2.takeWhile isDigitDot
    if d1 = [] then none
    else
      match p1.2.dropWhile isDigitDot with
      | '!' :: '4' :: 'd' :: rest2 =>
        let p2 := signSplit rest2
        let d2 := p2.2.takeWhile isDigitDot
        if d2 = [] then none else some (p1.1 ++ d1, p2.1 ++ d2)
      | _ => none
  | _ => none

/-- Leftmost match of the pb regex in the list: try every start position from
the left, as `String.prototype.match` does. -/
def pbFirstMatch : List Char → Option (List Char × List Char)
  | [] => none
  | c :: rest =>
    match pbMatchAt (c :: rest) with
    | some r => some r
    | none => pbFirstMatch rest

/-- The pb branch of `extractFromIframe`: on a regex match, build the record
from `parseFloat` of the groups (the source applies no NaN or range check
here). -/
def pbExtract (pb : String) : Option Coord :=
  match pbFirstMatch pb.toList with
  | some (g1, g2) => some ⟨parseFloatL g1, parseFloatL g2, "iframe-pb"⟩
  | none => none

/-- The `location` branch of `extractFromIframe`: `Utils.parseCoordinates`
on the parameter value, tagged `iframe-location`. -/
def locExtract (loc : String) : Option Coord :=
  match parseCoordinates loc with
  | some (a, b) => some ⟨a, b, "iframe-location"⟩
  | none => none

/-- One map-bearing iframe as the scanner sees it: whether `new URL(src)`
succeeds, and the `pb` and `location` query parameters when present. -/
structure IFrame where
  urlOk : Bool
  pb : Option String
  location : Option String
deriving DecidableEq

/-- The matcher cascade inside the per-iframe loop body, after the URL has
been parsed: try the pb matcher first, then the `location` parameter. -/
def matchersOnFrame (f : IFrame) : Option Coord :=
  match f.pb with
  | some pb =>
    match pbExtract pb with
    | some c => some c
    | none =>
      match f.location with
      | some loc => locExtract loc
      | none => none
  | none =>
    match f.location with
    | some loc => locExtract loc
    | none => none

/-- One iteration of the scanner on a single iframe; a URL parse failure is
caught and the element is skipped. -/
def extractFromFrame (f : IFrame) : Option Coord :=
  if f.urlOk then matchersOnFrame f else none

/-- `LocationExtractor.extractFromIframe`: walk the map-bearing iframes in
document order and return the first successful parse, null when none. -/
def extractFromIframe : List IFrame → Option Coord
  | [] => none
  | f :: fs =>
    match extractFromFrame f with
    | some c => some c
    | none => extractFromIframe fs

/-! ## LocationExtractor.getCurrentLocation -/

/-- `LocationExtractor.getCurrentLocation`, with `currentLocation` threaded
explicitly: run the iframe scan; on success store and return it; otherwise
return the cached value unchanged.  Result is (returned value, new cache). -/
def getCurrentLocation (frames : List IFrame) (cache : Option Coord) :
    Option Coord × Option Coord :=
  match extractFromIframe frames with
  | some c => (some c, some c)
  | none => (cache, cache)

/-! ## The network interceptors -/

/-- `sub.isPrefixOf cs` scanning, i.e. `String.prototype.includes` on
character lists. -/
def containsL (sub : List Char) : List Char → Bool
  | [] => sub.isPrefixOf ([] : List Char)
  | c :: rest => sub.isPrefixOf (c :: rest) || containsL sub rest

/-- `String.prototype.includes` on strings. -/
def containsSub (s sub : String) : Bool := containsL sub.toList s.toList

/-- URL keyword filter of the fetch interceptor. -/
def urlMatchesFetch (url : String) : Bool :=
  containsSub url "maps" || containsSub url "location" || containsSub url "coordinates"

/-- URL keyword filter of the XMLHttpRequest interceptor. -/
def urlMatchesXHR (url : String) : Bool :=
  containsSub url "maps" || containsSub url "location"

/-- Attempt to match `[-]?\d+\.\d+` at the start of the list, returning the
matched characters and the remainder. -/
def numDotNumAt (cs : List Char) : Option (List Char × List Char) :=
  let p := signSplit cs
  let d1 := p.2.takeWhile Char.isDigit
  if d1 = [] then none
  else
    match p.2.dropWhile Char.isDigit with
    | '.' :: r2 =>
      let d2 := r2.takeWhile Char.isDigit
      if d2 = [] then none
      else some (p.1 ++ d1 ++ '.' :: d2, r2.dropWhile Char.isDigit)
    | _ => none

/-- Attempt to match the whole free-text pattern
`[-]?\d+\.\d+,\s*[-]?\d+\.\d+` at the start of the list. -/
def coordPairAt (cs : List Char) : Option (List Char) :=
  match numDotNumAt cs with
  | none => none
  | some (m1, rest) =>
    match rest with
    | ',' :: rest2 =>
      let sp := rest2.takeWhile isWS
      match numDotNumAt (rest2.dropWhile isWS) with
      | none => none
      | some (m2, _) => some (m1 ++ ',' :: (sp ++ m2))
    | _ => none

/-- Leftmost match of the free-text coordinate regex, i.e. element 0 of the
array returned by `text.match(/[-]?\d+\.\d+,\s*[-]?\d+\.\d+/g)`. -/
def coordFirstMatch : List Char → Option (List Char)
  | [] => none
  | c :: rest =>
    match coordPairAt (c :: rest) with
    | some m => some m
    | none => coordFirstMatch rest

/-- The coordinate the fetch interceptor stores for a given request URL and
cloned body text (`none` models a body that could not be read): keyword
filter, leftmost free-text match, `parseCoordinates`, then the full range
check on both lat and lng before tagging with source `fetch`. -/
def fetchNewCoord (url : String) (body : Option String) : Option Coord :=
  if urlMatchesFetch url then
    match body with
    | none => none
    | some text =>
      match coordFirstMatch text.toList with
      | none => none
      | some m =>
        match parseCoordinates (String.mk m) with
        | none => none
        | some (a, b) =>
          if a.geQ (-90) && a.leQ 90 && b.geQ (-180) && b.leQ 180 then
            some ⟨a, b, "fetch"⟩
          else none
  else none

/-- `LocationExtractor.currentLocation` update: an accepted coordinate
overwrites the cache, otherwise the cache is untouched. -/
def updateCache (hit : Option Coord) (cache : Option Coord) : Option Coord :=
  match hit with
  | some c => some c
  | none => cache

/-- The wrapped `window.fetch`, with the original call's outcome, the cloned
body text and the cache threaded explicitly.  A rejected original call
propagates unchanged; a fulfilled one is returned to the caller as-is while
the cache is updated as a side effect. -/
def wrappedFetchE {ε ρ : Type} (url : String) (result : Except ε ρ)
    (body : Option String) (cache : Option Coord) : Except ε ρ × Option Coord :=
  match result with
  | .error e => (.error e, cache)
  | .ok resp => (.ok resp, updateCache (fetchNewCoord url body) cache)

/-- The coordinate the XMLHttpRequest load listener stores, from the saved
`this._url` (absent when `open` never ran) and `this.responseText`: keyword
filter, leftmost free-text match, `parseCoordinates`, then a range check on
lat only (the source omits the lng bounds here), tagged `xhr`. -/
def xhrNewCoord (url : Option String) (responseText : String) : Option Coord :=
  match url with
  | none => none
  | some u =>
    if urlMatchesXHR u then
      match coordFirstMatch responseText.toList with
      | none => none
      | some m =>
        match parseCoordinates (String.mk m) with
        | none => none
        | some (a, b) =>
          if a.geQ (-90) && a.leQ 90 then some ⟨a, b, "xhr"⟩ else none
    else none

/-- Cache effect of the XMLHttpRequest load listener. -/
def xhrOnLoad (url : Option String) (responseText : String)
    (cache : Option Coord) : Option Coord :=
  updateCache (xhrNewCoord url responseText) cache

/-! ## General lemmas about the scanners -/

theorem takeWhile_append_stop (p : Char → Bool) (l : List Char) (x : Char)
    (r : List Char) (hl : ∀ c ∈ l, p c = true) (hx : p x = false) :
    (l ++ x :: r).takeWhile p = l ∧ (l ++ x :: r).dropWhile p = x :: r := by
  induction l with
  | nil => simp [List.takeWhile_cons, List.dropWhile_cons, hx]
  | cons a as ih =>
    have ha : p a = true := hl a (by simp)
    have ih2 := ih (fun c hc => hl c (by simp [hc]))
    simp [List.takeWhile_cons, List.dropWhile_cons, ha, ih2.1, ih2.2]

theorem takeWhile_all_true (p : Char → Bool) (l : List Char)
    (hl : ∀ c ∈ l, p c = true) :
    l.takeWhile p = l ∧ l.dropWhile p = [] := by
  induction l with
  | nil => simp
  | cons a as ih =>
    have ha : p a = true := hl a (by simp)
    have ih2 := ih (fun c hc => hl c (by simp [hc]))
    simp [List.takeWhile_cons, List.dropWhile_cons, ha, ih2.1, ih2.2]

theorem digit_ne_char {c : Char} (d : Char) (h : c.isDigit = true)
    (hd : d.isDigit = false) : c ≠ d := by
  intro he
  rw [he, hd] at h
  exact absurd h (by decide)

theorem isDigit_not_isWS {c : Char} (h : c.isDigit = true) : isWS c = false := by
  unfold isWS
  have h1 : c ≠ ' ' := digit_ne_char ' ' h (by decide)
  have h2 : c ≠ '\t' := digit_ne_char '\t' h (by decide)
  have h3 : c ≠ '\n' := digit_ne_char '\n' h (by decide)
  have h4 : c ≠ '\r' := digit_ne_char '\r' h (by decide)
  have h5 : c ≠ '\x0b' := digit_ne_char '\x0b' h (by decide)
  have h6 : c ≠ '\x0c' := digit_ne_char '\x0c' h (by decide)
  simp [h1, h2, h3, h4, h5, h6]

theorem take8_ne_Infinity {c : Char} (t : List Char) (h : c.isDigit = true) :
    ¬ ((c :: t).take 8 = ['I', 'n', 'f', 'i', 'n', 'i', 't', 'y']) := by
  intro he
  have h1 : (c :: t).take 8 = c :: t.take 7 := rfl
  rw [h1] at he
  injection he with he1 _
  exact digit_ne_char 'I' h (by decide) he1

theorem decChars_digitDot {ip fp : List Char} (hip : ip.all Char.isDigit = true)
    (hfp : fp.all Char.isDigit = true) :
    ∀ c ∈ ip ++ '.' :: fp, isDigitDot c = true := by
  intro c hc
  rcases List.mem_append.mp hc with h | h
  · simp [isDigitDot, List.all_eq_true.mp hip c h]
  · rcases List.mem_cons.mp h with h2 | h2
    · simp [isDigitDot, h2]
    · simp [isDigitDot, List.all_eq_true.mp hfp c h2]

theorem signSplit_dash (r : List Char) : signSplit ('-' :: r) = (['-'], r) := rfl

theorem signSplit_no_dash {c : Char} (r : List Char) (h : ¬ c = '-') :
    signSplit (c :: r) = ([], c :: r) := by
  unfold signSplit
  split
  · rename_i heq
    injection heq with heq1 _
    exact absurd heq1 h
  · rfl

theorem parseFloatL_dash (t : List Char) :
    parseFloatL ('-' :: t) = parseFloatCore true t := by
  unfold parseFloatL
  rw [List.dropWhile_cons]
  rw [show isWS '-' = false from by decide]
  simp only [Bool.false_eq_true, if_false]

theorem parseFloatL_digit_head {c : Char} (t : List Char) (h : c.isDigit = true) :
    parseFloatL (c :: t) = parseFloatCore false (c :: t) := by
  unfold parseFloatL
  rw [List.dropWhile_cons, isDigit_not_isWS h]
  simp only [Bool.false_eq_true, if_false]
  have hd : c ≠ '-' := digit_ne_char '-' h (by decide)
  have hp : c ≠ '+' := digit_ne_char '+' h (by decide)
  split
  · rename_i heq
    injection heq with heq1 _
    exact absurd heq1 hd
  · rename_i heq
    injection heq with heq1 _
    exact absurd heq1 hp
  · rfl

/-! ## The well-formed decimal encodings used by the round-trip property -/

/-- A signed decimal literal `[-]digits.digits`, given by its sign, integer
digits and fraction digits. -/
def encDec (neg : Bool) (ip fp : List Char) : List Char :=
  (if neg then ['-'] else []) ++ ip ++ '.' :: fp

/-- The exact rational value denoted by such a literal. -/
def decVal (neg : Bool) (ip fp : List Char) : ℚ :=
  let v : ℚ := mkRat ((digitsToNat ip * 10 ^ fp.length + digitsToNat fp : Nat) : Int)
    (10 ^ fp.length)
  if neg then -v else v

theorem parseFloatCore_dec (neg : Bool) (ip fp : List Char)
    (hip : ip ≠ []) (h2 : ip.all Char.isDigit = true)
    (h4 : fp.all Char.isDigit = true) :
    parseFloatCore neg (ip ++ '.' :: fp) = .fin (decVal neg ip fp) := by
  have hiD : ∀ c ∈ ip, Char.isDigit c = true := List.all_eq_true.mp h2
  have hfD : ∀ c ∈ fp, Char.isDigit c = true := List.all_eq_true.mp h4
  have htw := takeWhile_append_stop Char.isDigit ip '.' fp hiD (by decide)
  have hfw := takeWhile_all_true Char.isDigit fp hfD
  obtain ⟨c, t, rfl⟩ : ∃ c t, ip = c :: t := by
    cases ip with
    | nil => exact absurd rfl hip
    | cons c t => exact ⟨c, t, rfl⟩
  have hc : c.isDigit = true := hiD c (by simp)
  rw [List.cons_append] at htw ⊢
  unfold parseFloatCore
  rw [if_neg (take8_ne_Infinity _ hc)]
  simp only [htw.1, htw.2, hfw.1, hfw.2]
  simp [parseExp, decVal]

theorem parseFloatL_encDec (n : Bool) (ip fp : List Char)
    (hip : ip ≠ []) (h2 : ip.all Char.isDigit = true)
    (h4 : fp.all Char.isDigit = true) :
    parseFloatL (encDec n ip fp) = .fin (decVal n ip fp) := by
  cases n with
  | true =>
    have he : encDec true ip fp = '-' :: (ip ++ '.' :: fp) := by simp [encDec]
    rw [he, parseFloatL_dash, parseFloatCore_dec true ip fp hip h2 h4]
  | false =>
    have he : encDec false ip fp = ip ++ '.' :: fp := by simp [encDec]
    obtain ⟨c, t, rfl⟩ : ∃ c t, ip = c :: t := by
      cases ip with
      | nil => exact absurd rfl hip
      | cons c t => exact ⟨c, t, rfl⟩
    have hc : c.isDigit = true := List.all_eq_true.mp h2 c (by simp)
    rw [he, List.cons_append, parseFloatL_digit_head _ hc, ← List.cons_append,
      parseFloatCore_dec false (c :: t) fp hip h2 h4]

theorem pbMatchAt_cons (rest : List Char) :
    pbMatchAt ('!' :: '3' :: 'd' :: rest)
      = (let p1 := signSplit rest
         let d1 := p1.2.takeWhile isDigitDot
         if d1 = [] then none
         else
           match p1.2.dropWhile isDigitDot with
           | '!' :: '4' :: 'd' :: rest2 =>
             let p2 := signSplit rest2
             let d2 := p2.2.takeWhile isDigitDot
             if d2 = [] then none else some (p1.1 ++ d1, p2.1 ++ d2)
           | _ => none) := rfl

theorem signSplit_encDec (n : Bool) (ip fp tail : List Char)
    (hip : ip ≠ []) (h2 : ip.all Char.isDigit = true) :
    signSplit (encDec n ip fp ++ tail)
      = ((if n then ['-'] else []), (ip ++ '.' :: fp) ++ tail) := by
  cases n with
  | true =>
    simp only [encDec, if_true, List.cons_append, List.singleton_append]
    exact signSplit_dash _
  | false =>
    simp only [encDec, if_false, List.nil_append]
    obtain ⟨c, t, rfl⟩ : ∃ c t, ip = c :: t := by
      cases ip with
      | nil => exact absurd rfl hip
      | cons c t => exact ⟨c, t, rfl⟩
    have hc : c.isDigit = true := List.all_eq_true.mp h2 c (by simp)
    rw [List.cons_append, List.cons_append]
    exact signSplit_no_dash _ (digit_ne_char '-' hc (by decide))

theorem signSplit_encDec_nil (n : Bool) (ip fp : List Char)
    (hip : ip ≠ []) (h2 : ip.all Char.isDigit = true) :
    signSplit (encDec n ip fp) = ((if n then ['-'] else []), ip ++ '.' :: fp) := by
  have h := signSplit_encDec n ip fp [] hip h2
  simpa using h

theorem pbMatchAt_enc (n1 n2 : Bool) (ip1 fp1 ip2 fp2 : List Char)
    (h1 : ip1 ≠ []) (h2 : ip1.all Char.isDigit = true)
    (h4 : fp1.all Char.isDigit = true)
    (h5 : ip2 ≠ []) (h6 : ip2.all Char.isDigit = true)
    (h8 : fp2.all Char.isDigit = true) :
    pbMatchAt ('!' :: '3' :: 'd' ::
        (encDec n1 ip1 fp1 ++ '!' :: '4' :: 'd' :: encDec n2 ip2 fp2))
      = some (encDec n1 ip1 fp1, encDec n2 ip2 fp2) := by
  have hdd1 : ∀ c ∈ ip1 ++ '.' :: fp1, isDigitDot c = true := decChars_digitDot h2 h4
  have hdd2 : ∀ c ∈ ip2 ++ '.' :: fp2, isDigitDot c = true := decChars_digitDot h6 h8
  have htw1 := takeWhile_append_stop isDigitDot (ip1 ++ '.' :: fp1) '!'
    ('4' :: 'd' :: encDec n2 ip2 fp2) hdd1 (by decide)
  have htw2 := takeWhile_all_true isDigitDot (ip2 ++ '.' :: fp2) hdd2
  rw [pbMatchAt_cons, signSplit_encDec n1 ip1 fp1 _ h1 h2]
  simp only [htw1.1, htw1.2]
  rw [if_neg (by simp)]
  rw [signSplit_encDec_nil n2 ip2 fp2 h5 h6]
  simp only [htw2.1]
  rw [if_neg (by simp)]
  cases n1 <;> cases n2 <;> simp [encDec]

theorem toList_mk (l : List Char) : (String.mk l).toList = l := rfl

theorem pbFirstMatch_enc (n1 n2 : Bool) (ip1 fp1 ip2 fp2 : List Char)
    (h1 : ip1 ≠ []) (h2 : ip1.all Char.isDigit = true)
    (h4 : fp1.all Char.isDigit = true)
    (h5 : ip2 ≠ []) (h6 : ip2.all Char.isDigit = true)
    (h8 : fp2.all Char.isDigit = true) :
    pbFirstMatch ('!' :: '3' :: 'd' ::
        (encDec n1 ip1 fp1 ++ '!' :: '4' :: 'd' :: encDec n2 ip2 fp2))
      = some (encDec n1 ip1 fp1, encDec n2 ip2 fp2) := by
  unfold pbFirstMatch
  rw [pbMatchAt_enc n1 n2 ip1 fp1 ip2 fp2 h1 h2 h4 h5 h6 h8]

theorem mem_of_mem_dropWhile {p : Char → Bool} {l : List Char} {c : Char}
    (h : c ∈ l.dropWhile p) : c ∈ l := by
  induction l with
  | nil => simp at h
  | cons a as ih =>
    rw [List.dropWhile_cons] at h
    by_cases hp : p a = true
    · simp only [hp, if_true] at h
      exact List.mem_cons_of_mem _ (ih h)
    · rw [if_neg hp] at h
      exact h

theorem signSplit_snd_mem (cs : List Char) {c : Char}
    (h : c ∈ (signSplit cs).2) : c ∈ cs := by
  cases cs with
  | nil => simp [signSplit] at h
  | cons a r =>
    by_cases ha : a = '-'
    · subst ha
      rw [signSplit_dash] at h
      exact List.mem_cons_of_mem _ h
    · rw [signSplit_no_dash _ ha] at h
      exact h

theorem numDotNumAt_no_dot (cs : List Char) (h : ∀ c ∈ cs, ¬ c = '.') :
    numDotNumAt cs = none := by
  unfold numDotNumAt
  dsimp only
  split
  · rfl
  · split
    · rename_i r2 heq
      have hdot : '.' ∈ (signSplit cs).2.dropWhile Char.isDigit := by
        rw [heq]; simp
      have hmem : '.' ∈ cs :=
        signSplit_snd_mem cs (mem_of_mem_dropWhile hdot)
      exact absurd rfl (h '.' hmem)
    · rfl

theorem coordPairAt_no_dot (cs : List Char) (h : ∀ c ∈ cs, ¬ c = '.') :
    coordPairAt cs = none := by
  unfold coordPairAt
  rw [numDotNumAt_no_dot cs h]

theorem coordFirstMatch_no_dot (cs : List Char) (h : ∀ c ∈ cs, ¬ c = '.') :
    coordFirstMatch cs = none := by
  induction cs with
  | nil => rfl
  | cons a r ih =>
    unfold coordFirstMatch
    rw [coordPairAt_no_dot (a :: r) h]
    exact ih (fun c hc => h c (List.mem_cons_of_mem _ hc))

/-! ## Exception-explicit variants of the scanner

The only operation inside the scanner that can throw is the `new URL`
constructor; the per-iframe try/catch turns that into a `continue`, and the
surrounding try/catch turns any escaping error into a null return.  These
variants make both try/catch layers explicit so that the no-throw policy is
a provable statement rather than a modelling artefact. -/

/-- The `new URL(iframe.src)` call: throws exactly when the URL is invalid. -/
def newURLE (f : IFrame) : Except String IFrame :=
  if f.urlOk then .ok f else .error "TypeError: invalid URL"

/-- The scanner loop with the inner try/catch explicit: a URL failure is
caught and the loop continues with the next element. -/
def extractLoopE : List IFrame → Except String (Option Coord)
  | [] => .ok none
  | f :: fs =>
    match newURLE f with
    | .error _ => extractLoopE fs
    | .ok f2 =>
      match matchersOnFrame f2 with
      | some c => .ok (some c)
      | none => extractLoopE fs

/-- `extractFromIframe` with the outer try/catch explicit: any error escaping
the loop is caught, logged and turned into a null return. -/
def extractFromIframeE (frames : List IFrame) : Except String (Option Coord) :=
  match extractLoopE frames with
  | .ok r => .ok r
  | .error _ => .ok none

/-- `getCurrentLocation` with exceptions explicit: an error from the scan
would propagate to the caller, an ok result is handled as in the source. -/
def getCurrentLocationE (frames : List IFrame) (cache : Option Coord) :
    Except String (Option Coord × Option Coord) :=
  match extractFromIframeE frames with
  | .error e => .error e
  | .ok (some c) => .ok (some c, some c)
  | .ok none => .ok (cache, cache)

theorem extractLoopE_ok (frames : List IFrame) :
    extractLoopE frames = .ok (extractFromIframe frames) := by
  induction frames with
  | nil => rfl
  | cons f fs ih =>
    unfold extractLoopE extractFromIframe extractFromFrame newURLE
    by_cases h : f.urlOk = true
    · rw [if_pos h, if_pos h]
      cases hm : matchersOnFrame f with
      | none => simp [hm, ih]
      | some c => simp [hm]
    · rw [if_neg h, if_neg h]
      exact ih

theorem map_eq_pair {α β : Type} (f : α → β) (l : List α) (x y : β)
    (h : l.map f = [x, y]) : ∃ p q, l = [p, q] ∧ f p = x ∧ f q = y := by
  cases l with
  | nil => simp at h
  | cons p t =>
    cases t with
    | nil => simp at h
    | cons q t2 =>
      cases t2 with
      | nil =>
        simp at h
        exact ⟨p, q, rfl, h.1, h.2⟩
      | cons r t3 => simp at h

/-! ## Range behaviour of the interceptors -/

theorem fetchNewCoord_range (url : String) (body : Option String) (c : Coord)
    (h : fetchNewCoord url body = some c) :
    c.lat.geQ (-90) = true ∧ c.lat.leQ 90 = true ∧
    c.lng.geQ (-180) = true ∧ c.lng.leQ 180 = true := by
  unfold fetchNewCoord at h
  split at h
  · split at h
    · exact absurd h (by simp)
    · split at h
      · exact absurd h (by simp)
      · split at h
        · exact absurd h (by simp)
        · split at h
          · rename_i hcond
            injection h with h2
            subst h2
            simp only [Bool.and_eq_true] at hcond
            exact ⟨hcond.1.1.1, hcond.1.1.2, hcond.1.2, hcond.2⟩
          · exact absurd h (by simp)
  · exact absurd h (by simp)

theorem xhrNewCoord_range (url : Option String) (text : String) (c : Coord)
    (h : xhrNewCoord url text = some c) :
    c.lat.geQ (-90) = true ∧ c.lat.leQ 90 = true := by
  unfold xhrNewCoord at h
  split at h
  · exact absurd h (by simp)
  · split at h
    · split at h
      · exact absurd h (by simp)
      · split at h
        · exact absurd h (by simp)
        · split at h
          · rename_i hcond
            injection h with h2
            subst h2
            simp only [Bool.and_eq_true] at hcond
            exact ⟨hcond.1, hcond.2⟩
          · exact absurd h (by simp)
    · exact absurd h (by simp)

/-! ## Claims -/

/-- C1 (corrected).  The original claim, that every Coordinate stored or
returned has lat in [-90,90] and lng in [-180,180], fails: the passive iframe
matchers apply no range validation (see the counterexample).  What does hold,
and is proved here, is the amended statement: every Coordinate the fetch
interceptor writes satisfies both bounds, every Coordinate the XHR
interceptor writes satisfies the lat bounds, while the structured-parameter
value with 95/200 and the location parameter with 95,200 both flow through
`getCurrentLocation` unvalidated. -/
theorem C1_range_validation :
    (∀ url body c, fetchNewCoord url body = some c →
       c.lat.geQ (-90) = true ∧ c.lat.leQ 90 = true ∧
       c.lng.geQ (-180) = true ∧ c.lng.leQ 180 = true)
  ∧ (∀ url text c, xhrNewCoord url text = some c →
       c.lat.geQ (-90) = true ∧ c.lat.leQ 90 = true)
  ∧ (getCurrentLocation [⟨true, some "!3d95.0!4d200.0", none⟩] none).1
      = some ⟨.fin 95, .fin 200, "iframe-pb"⟩
  ∧ (getCurrentLocation [⟨true, none, some "95,200"⟩] none).1
      = some ⟨.fin 95, .fin 200, "iframe-location"⟩ :=
  ⟨fun url body c h => fetchNewCoord_range url body c h,
   fun url text c h => xhrNewCoord_range url text c h,
   by decide, by decide⟩

/-- C1 counterexample: a pb parameter `!3d95.0!4d200.0` yields a Coordinate
with lat 95 > 90 and lng 200 > 180 that `getCurrentLocation` both stores as
current and returns, contradicting the claim that such a pair is never
stored or returned. -/
theorem C1_counterexample :
    getCurrentLocation [⟨true, some "!3d95.0!4d200.0", none⟩] none
      = (some ⟨.fin 95, .fin 200, "iframe-pb"⟩,
         some ⟨.fin 95, .fin 200, "iframe-pb"⟩)
    ∧ ¬ ((95 : ℚ) ≤ 90) ∧ ¬ ((200 : ℚ) ≤ 180) := by
  refine ⟨by decide, by decide, by decide⟩

/-- C1 witness: the amended range statement applied to a concrete fetch
interception that stores lat 12.5, lng 30.5. -/
theorem C1_range_validation_witness :
    (Coord.mk (.fin (mkRat 25 2)) (.fin (mkRat 61 2)) "fetch").lat.geQ (-90) = true
  ∧ (Coord.mk (.fin (mkRat 25 2)) (.fin (mkRat 61 2)) "fetch").lat.leQ 90 = true
  ∧ (Coord.mk (.fin (mkRat 25 2)) (.fin (mkRat 61 2)) "fetch").lng.geQ (-180) = true
  ∧ (Coord.mk (.fin (mkRat 25 2)) (.fin (mkRat 61 2)) "fetch").lng.leQ 180 = true :=
  C1_range_validation.1 "maps" (some "12.5, 30.5")
    ⟨.fin (mkRat 25 2), .fin (mkRat 61 2), "fetch"⟩ (by decide)

/-- C2 (code bug).  The claim says both interceptors reject any pair with
|lat|>90 or |lng|>180.  The fetch interceptor does, but the XHR load
listener checks only the lat bounds, so a response body `40.5,200.5` on a
matching URL is written into the cache with lng 200.5 > 180. -/
theorem C2_xhr_misses_lng_check :
    xhrOnLoad (some "https://example.com/maps/api") "40.5,200.5" none
      = some ⟨.fin (mkRat 81 2), .fin (mkRat 401 2), "xhr"⟩
  ∧ ¬ ((mkRat 401 2 : ℚ) ≤ 180)
  ∧ fetchNewCoord "https://example.com/maps/api" (some "40.5,200.5") = none := by
  refine ⟨by decide, by decide, by decide⟩

/-- C3 (confirmed).  `getCurrentLocation` runs the passive scan first; a
successful scan overwrites any prior cache value (whatever its source) and
is returned; a null scan leaves the cache untouched and returns it. -/
theorem C3_scan_then_cache (frames : List IFrame) (cache : Option Coord) :
    (∀ c, extractFromIframe frames = some c →
       getCurrentLocation frames cache = (some c, some c))
  ∧ (extractFromIframe frames = none →
       getCurrentLocation frames cache = (cache, cache)) := by
  constructor
  · intro c h
    unfold getCurrentLocation
    rw [h]
  · intro h
    unfold getCurrentLocation
    rw [h]

/-- C3 witness: the spec scenario — the cache holds (40,-75) from a passive
source, the live scan finds nothing, and `getCurrentLocation` still returns
the cached value; and a successful scan overwrites a network-sourced cache
entry. -/
theorem C3_scan_then_cache_witness :
    getCurrentLocation [] (some ⟨.fin 40, .fin (-75), "iframe-pb"⟩)
      = (some ⟨.fin 40, .fin (-75), "iframe-pb"⟩,
         some ⟨.fin 40, .fin (-75), "iframe-pb"⟩)
  ∧ getCurrentLocation [⟨true, some "!3d40.0!4d-75.0", none⟩]
      (some ⟨.fin 10, .fin 20, "fetch"⟩)
      = (some ⟨.fin 40, .fin (-75), "iframe-pb"⟩,
         some ⟨.fin 40, .fin (-75), "iframe-pb"⟩) :=
  ⟨(C3_scan_then_cache [] (some ⟨.fin 40, .fin (-75), "iframe-pb"⟩)).2 (by decide),
   (C3_scan_then_cache [⟨true, some "!3d40.0!4d-75.0", none⟩]
      (some ⟨.fin 10, .fin 20, "fetch"⟩)).1
     ⟨.fin 40, .fin (-75), "iframe-pb"⟩ (by decide)⟩

/-- C4 (confirmed).  The passive scanner walks the map-bearing elements in
document order; within one element the pb matcher is tried before the
location matcher; elements that fail to parse are skipped; the first success
is returned and null is returned when no element yields a coordinate.  In
particular one failing and one succeeding element return the success in
either order. -/
theorem C4_scanner_order
    (fskip fhit fpb floc bad good : IFrame) (fs : List IFrame)
    (c1 c2 cg : Coord) (pb1 pb2 loc2 : String) :
    extractFromIframe [] = none
  ∧ (extractFromFrame fskip = none →
       extractFromIframe (fskip :: fs) = extractFromIframe fs)
  ∧ (extractFromFrame fhit = some c1 →
       extractFromIframe (fhit :: fs) = some c1)
  ∧ (fpb.urlOk = true → fpb.pb = some pb1 → pbExtract pb1 = some c2 →
       extractFromFrame fpb = some c2)
  ∧ (floc.urlOk = true → floc.pb = some pb2 → floc.location = some loc2 →
       pbExtract pb2 = none → extractFromFrame floc = locExtract loc2)
  ∧ (extractFromFrame bad = none → extractFromFrame good = some cg →
       extractFromIframe [bad, good] = some cg
       ∧ extractFromIframe [good, bad] = some cg) := by
  refine ⟨rfl, ?_, ?_, ?_, ?_, ?_⟩
  · intro h
    show (match extractFromFrame fskip with
          | some c => some c
          | none => extractFromIframe fs) = extractFromIframe fs
    rw [h]
  · intro h
    unfold extractFromIframe
    rw [h]
  · intro hurl hpb hm
    unfold extractFromFrame matchersOnFrame
    rw [if_pos hurl, hpb]
    simp only [hm]
  · intro hurl hpb hloc hm
    unfold extractFromFrame matchersOnFrame
    rw [if_pos hurl, hpb]
    simp only [hm, hloc]
  · intro hb hg
    constructor
    · unfold extractFromIframe
      rw [hb]
      unfold extractFromIframe
      rw [hg]
    · unfold extractFromIframe
      rw [hg]

/-- C4 witness: concrete frames — an empty scan, a skipped empty frame, a
pb hit, pb preferred over a present location parameter, fallback to the
location matcher when the pb regex fails, and the two-element scenario in
both orders. -/
theorem C4_scanner_order_witness :
    extractFromIframe [] = none
  ∧ extractFromIframe [⟨true, none, none⟩] = extractFromIframe []
  ∧ extractFromIframe [⟨true, some "!3d48.0!4d2.0", none⟩]
      = some ⟨.fin 48, .fin 2, "iframe-pb"⟩
  ∧ extractFromFrame ⟨true, some "!3d48.0!4d2.0", some "1.5,2.5"⟩
      = some ⟨.fin 48, .fin 2, "iframe-pb"⟩
  ∧ extractFromFrame ⟨true, some "zzz", some "1.5,2.5"⟩ = locExtract "1.5,2.5"
  ∧ (extractFromIframe [⟨false, some "!3d48.0!4d2.0", none⟩,
        ⟨true, some "!3d48.0!4d2.0", none⟩] = some ⟨.fin 48, .fin 2, "iframe-pb"⟩
     ∧ extractFromIframe [⟨true, some "!3d48.0!4d2.0", none⟩,
        ⟨false, some "!3d48.0!4d2.0", none⟩] = some ⟨.fin 48, .fin 2, "iframe-pb"⟩) := by
  have h := C4_scanner_order ⟨true, none, none⟩
    ⟨true, some "!3d48.0!4d2.0", none⟩
    ⟨true, some "!3d48.0!4d2.0", some "1.5,2.5"⟩
    ⟨true, some "zzz", some "1.5,2.5"⟩
    ⟨false, some "!3d48.0!4d2.0", none⟩
    ⟨true, some "!3d48.0!4d2.0", none⟩ []
    ⟨.fin 48, .fin 2, "iframe-pb"⟩ ⟨.fin 48, .fin 2, "iframe-pb"⟩
    ⟨.fin 48, .fin 2, "iframe-pb"⟩
    "!3d48.0!4d2.0" "zzz" "1.5,2.5"
  exact ⟨h.1, h.2.1 (by decide), h.2.2.1 (by decide),
    h.2.2.2.1 rfl rfl (by decide),
    h.2.2.2.2.1 rfl rfl rfl (by decide),
    h.2.2.2.2.2 (by decide) (by decide)⟩

/-- C5 (confirmed).  The wrapped fetch returns to its caller exactly the
outcome of the original fetch: a fulfilled response is passed through
unchanged whatever the body inspection does, an unreadable body leaves the
cache untouched, and a rejected original call propagates as-is with no cache
write. -/
theorem C5_fetch_passthrough {ε ρ : Type} (url : String) (r : Except ε ρ)
    (v : ρ) (e : ε) (body : Option String) (cache : Option Coord) :
    (wrappedFetchE url r body cache).1 = r
  ∧ (wrappedFetchE url (Except.ok v : Except ε ρ) none cache).2 = cache
  ∧ wrappedFetchE url (Except.error e : Except ε ρ) body cache
      = (Except.error e, cache) := by
  refine ⟨?_, ?_, rfl⟩
  · cases r <;> rfl
  · show updateCache (fetchNewCoord url none) cache = cache
    unfold fetchNewCoord
    split <;> rfl

/-- C6 (confirmed).  Any coordinate the fetch interceptor accepts comes from
the leftmost free-text match of the body, parsed by `parseCoordinates` and
tagged `fetch`; the concrete body `...,37.422,-122.084,...` on a keyword
URL yields exactly the cached pair (37.422, -122.084) while the response
passes through unchanged; with two candidate pairs in one body, the
leftmost wins. -/
theorem C6_leftmost_match :
    (∀ url body c, fetchNewCoord url body = some c →
       ∃ text m, body = some text ∧ coordFirstMatch text.toList = some m ∧
         parseCoordinates (String.mk m) = some (c.lat, c.lng) ∧
         c.source = "fetch")
  ∧ (wrappedFetchE "https://example.com/maps/api"
       (Except.ok (ε := Unit) "...,37.422,-122.084,...")
       (some "...,37.422,-122.084,...") none).1
      = Except.ok "...,37.422,-122.084,..."
  ∧ (wrappedFetchE "https://example.com/maps/api"
       (Except.ok (ε := Unit) "...,37.422,-122.084,...")
       (some "...,37.422,-122.084,...") none).2
      = some ⟨.fin (mkRat 37422 1000), .fin (-(mkRat 122084 1000)), "fetch"⟩
  ∧ fetchNewCoord "maps" (some "50.5,60.5 99.9,99.9")
      = some ⟨.fin (mkRat 101 2), .fin (mkRat 121 2), "fetch"⟩ := by
  refine ⟨?_, rfl, by decide, by decide⟩
  intro url body c h
  unfold fetchNewCoord at h
  split at h
  · split at h
    · exact absurd h (by simp)
    · rename_i text
      split at h
      · exact absurd h (by simp)
      · rename_i m hm
        split at h
        · exact absurd h (by simp)
        · rename_i a b hp
          split at h
          · injection h with h2
            subst h2
            exact ⟨text, m, rfl, hm, hp, rfl⟩
          · exact absurd h (by simp)
  · exact absurd h (by simp)

/-- C6 witness: the leftmost-match characterisation applied to the body
`1.5,2.5` on a keyword URL. -/
theorem C6_leftmost_match_witness :
    ∃ text m, (some "1.5,2.5" : Option String) = some text ∧
      coordFirstMatch text.toList = some m ∧
      parseCoordinates (String.mk m)
        = some ((Coord.mk (.fin (mkRat 3 2)) (.fin (mkRat 5 2)) "fetch").lat,
                (Coord.mk (.fin (mkRat 3 2)) (.fin (mkRat 5 2)) "fetch").lng) ∧
      (Coord.mk (.fin (mkRat 3 2)) (.fin (mkRat 5 2)) "fetch").source = "fetch" :=
  C6_leftmost_match.1 "maps" (some "1.5,2.5")
    ⟨.fin (mkRat 3 2), .fin (mkRat 5 2), "fetch"⟩ (by decide)

/-- C7 (confirmed).  Round-trip of the structured-parameter matcher: for any
valid signed decimal pair in range, a pb parameter encoding
`!3d{lat}!4d{lng}` scans to exactly that pair, tagged with the primary
passive source `iframe-pb`. -/
theorem C7_pb_roundtrip (n1 n2 : Bool) (ip1 fp1 ip2 fp2 : List Char)
    (h1 : ip1 ≠ []) (h2 : ip1.all Char.isDigit = true)
    (_h3 : fp1 ≠ []) (h4 : fp1.all Char.isDigit = true)
    (h5 : ip2 ≠ []) (h6 : ip2.all Char.isDigit = true)
    (_h7 : fp2 ≠ []) (h8 : fp2.all Char.isDigit = true)
    (_hlat1 : -90 ≤ decVal n1 ip1 fp1) (_hlat2 : decVal n1 ip1 fp1 ≤ 90)
    (_hlng1 : -180 ≤ decVal n2 ip2 fp2) (_hlng2 : decVal n2 ip2 fp2 ≤ 180) :
    extractFromIframe
      [⟨true,
        some (String.mk ('!' :: '3' :: 'd' ::
          (encDec n1 ip1 fp1 ++ '!' :: '4' :: 'd' :: encDec n2 ip2 fp2))),
        none⟩]
      = some ⟨.fin (decVal n1 ip1 fp1), .fin (decVal n2 ip2 fp2), "iframe-pb"⟩ := by
  have hm := pbFirstMatch_enc n1 n2 ip1 fp1 ip2 fp2 h1 h2 h4 h5 h6 h8
  have hpe : pbExtract (String.mk ('!' :: '3' :: 'd' ::
      (encDec n1 ip1 fp1 ++ '!' :: '4' :: 'd' :: encDec n2 ip2 fp2)))
      = some ⟨.fin (decVal n1 ip1 fp1), .fin (decVal n2 ip2 fp2), "iframe-pb"⟩ := by
    unfold pbExtract
    rw [toList_mk, hm]
    show some (Coord.mk (parseFloatL (encDec n1 ip1 fp1))
        (parseFloatL (encDec n2 ip2 fp2)) "iframe-pb") = _
    rw [parseFloatL_encDec n1 ip1 fp1 h1 h2 h4,
      parseFloatL_encDec n2 ip2 fp2 h5 h6 h8]
  show (match extractFromFrame _ with
        | some c => some c
        | none => extractFromIframe []) = _
  unfold extractFromFrame matchersOnFrame
  rw [if_pos rfl]
  simp only [hpe]

/-- C7 witness: the spec scenario — `!3d48.8566!4d2.3522` yields exactly
(48.8566, 2.3522) with the primary passive source. -/
theorem C7_pb_roundtrip_witness :
    extractFromIframe
      [⟨true,
        some (String.mk ('!' :: '3' :: 'd' ::
          (encDec false ['4', '8'] ['8', '5', '6', '6']
            ++ '!' :: '4' :: 'd' :: encDec false ['2'] ['3', '5', '2', '2']))),
        none⟩]
      = some ⟨.fin (decVal false ['4', '8'] ['8', '5', '6', '6']),
              .fin (decVal false ['2'] ['3', '5', '2', '2']), "iframe-pb"⟩
  ∧ String.mk ('!' :: '3' :: 'd' ::
      (encDec false ['4', '8'] ['8', '5', '6', '6']
        ++ '!' :: '4' :: 'd' :: encDec false ['2'] ['3', '5', '2', '2']))
      = "!3d48.8566!4d2.3522"
  ∧ decVal false ['4', '8'] ['8', '5', '6', '6'] = mkRat 488566 10000
  ∧ decVal false ['2'] ['3', '5', '2', '2'] = mkRat 23522 10000 :=
  ⟨C7_pb_roundtrip false false ['4', '8'] ['8', '5', '6', '6'] ['2'] ['3', '5', '2', '2']
      (by decide) (by decide) (by decide) (by decide) (by decide) (by decide)
      (by decide) (by decide) (by decide) (by decide) (by decide) (by decide),
   by decide, by decide, by decide⟩

/-- C8 (confirmed).  Nothing in the core throws across its public boundary:
with the throwing URL constructor and both try/catch layers modelled
explicitly, the scanner and `getCurrentLocation` always return ok, and
`parseCoordinates` and both passive matchers always return a value or
null. -/
theorem C8_no_throw (frames : List IFrame) (cache : Option Coord)
    (s pb loc : String) :
    extractFromIframeE frames = .ok (extractFromIframe frames)
  ∧ getCurrentLocationE frames cache = .ok (getCurrentLocation frames cache)
  ∧ ((∃ a b, parseCoordinates s = some (a, b)) ∨ parseCoordinates s = none)
  ∧ ((∃ c, pbExtract pb = some c) ∨ pbExtract pb = none)
  ∧ ((∃ c, locExtract loc = some c) ∨ locExtract loc = none) := by
  have hE : extractFromIframeE frames = .ok (extractFromIframe frames) := by
    unfold extractFromIframeE
    rw [extractLoopE_ok]
  refine ⟨hE, ?_, ?_, ?_, ?_⟩
  · unfold getCurrentLocationE getCurrentLocation
    rw [hE]
    cases extractFromIframe frames <;> rfl
  · rcases hp : parseCoordinates s with _ | ⟨a, b⟩
    · exact Or.inr rfl
    · exact Or.inl ⟨a, b, rfl⟩
  · rcases hp : pbExtract pb with _ | c
    · exact Or.inr rfl
    · exact Or.inl ⟨c, rfl⟩
  · rcases hp : locExtract loc with _ | c
    · exact Or.inr rfl
    · exact Or.inl ⟨c, rfl⟩

/-- C9 (confirmed).  `parseCoordinates` accepts a string exactly when it is
non-empty and splits on commas into exactly two parts whose trimmed prefixes
`parseFloat` to non-NaN numbers; trailing junk after the numeric prefix is
accepted and no range validation is applied. -/
theorem C9_parseCoordinates_spec (s : String) (a b : JSNum) :
    (parseCoordinates s = some (a, b) ↔
      s ≠ "" ∧ ∃ p q, splitComma s.toList = [p, q] ∧
        parseFloatL (trimL p) = a ∧ parseFloatL (trimL q) = b ∧
        a.isNaN = false ∧ b.isNaN = false)
  ∧ parseCoordinates "12.5abc, 30.2xyz"
      = some (.fin (mkRat 25 2), .fin (mkRat 151 5))
  ∧ parseCoordinates "95,200" = some (.fin 95, .fin 200)
  ∧ parseCoordinates "" = none
  ∧ parseCoordinates "," = none
  ∧ parseCoordinates "1.0,2.0,3.0" = none := by
  refine ⟨?_, by decide, by decide, by decide, by decide, by decide⟩
  constructor
  · intro h
    unfold parseCoordinates at h
    split at h
    · exact absurd h (by simp)
    · rename_i hs
      refine ⟨hs, ?_⟩
      split at h
      · rename_i x y hmap
        obtain ⟨p, q, hpq, hfp, hfq⟩ :=
          map_eq_pair (fun p => parseFloatL (trimL p)) _ x y hmap
        split at h
        · exact absurd h (by simp)
        · rename_i hnan
          injection h with h2
          injection h2 with ha hb
          subst ha; subst hb
          simp only [Bool.or_eq_true, not_or, Bool.not_eq_true] at hnan
          exact ⟨p, q, hpq, hfp, hfq, hnan.1, hnan.2⟩
      · exact absurd h (by simp)
  · rintro ⟨hs, p, q, hpq, hfp, hfq, hna, hnb⟩
    unfold parseCoordinates
    rw [if_neg hs, hpq]
    simp only [List.map_cons, List.map_nil, hfp, hfq, hna, hnb]
    rfl

/-- C10 (confirmed).  The free-text regex of both interceptors requires a
decimal point in each number: a body with no dot at all can never match, so
neither interceptor writes to the cache for it; in particular the pair
`37,-122` without fractional parts is ignored by both. -/
theorem C10_integer_pairs_ignored (cs : List Char) (url u : String)
    (cache : Option Coord) (hnd : ∀ c ∈ cs, ¬ c = '.') :
    coordFirstMatch cs = none
  ∧ fetchNewCoord url (some (String.mk cs)) = none
  ∧ xhrNewCoord (some u) (String.mk cs) = none
  ∧ updateCache (fetchNewCoord url (some (String.mk cs))) cache = cache
  ∧ xhrOnLoad (some u) (String.mk cs) cache = cache
  ∧ fetchNewCoord "maps" (some "37,-122") = none
  ∧ xhrNewCoord (some "maps") "37,-122" = none := by
  have hcm : coordFirstMatch cs = none := coordFirstMatch_no_dot cs hnd
  have hf : fetchNewCoord url (some (String.mk cs)) = none := by
    unfold fetchNewCoord
    split
    · simp only [toList_mk, hcm]
    · rfl
  have hx : xhrNewCoord (some u) (String.mk cs) = none := by
    unfold xhrNewCoord
    split
    · rfl
    · rename_i v heq
      injection heq with hv
      subst hv
      split
      · simp only [toList_mk, hcm]
      · rfl
  refine ⟨hcm, hf, hx, ?_, ?_, by decide, by decide⟩
  · rw [hf]
    rfl
  · unfold xhrOnLoad
    rw [hx]
    rfl

/-- C10 witness: the general no-dot statement applied to the body `37,-122`
with a keyword URL and a non-empty cache. -/
theorem C10_integer_pairs_ignored_witness :
    coordFirstMatch ("37,-122".toList) = none
  ∧ fetchNewCoord "https://a/maps" (some (String.mk ("37,-122".toList))) = none
  ∧ xhrNewCoord (some "maps") (String.mk ("37,-122".toList)) = none
  ∧ updateCache (fetchNewCoord "https://a/maps" (some (String.mk ("37,-122".toList))))
      (some ⟨.fin 1, .fin 2, "fetch"⟩) = some ⟨.fin 1, .fin 2, "fetch"⟩
  ∧ xhrOnLoad (some "maps") (String.mk ("37,-122".toList))
      (some ⟨.fin 1, .fin 2, "fetch"⟩) = some ⟨.fin 1, .fin 2, "fetch"⟩
  ∧ fetchNewCoord "maps" (some "37,-122") = none
  ∧ xhrNewCoord (some "maps") "37,-122" = none :=
  C10_integer_pairs_ignored ("37,-122".toList) "https://a/maps" "maps"
    (some ⟨.fin 1, .fin 2, "fetch"⟩) (by decide)

/-- C9 witness: the characterisation applied to `12.5abc, 30.2xyz`, whose
trimmed prefixes parse to 12.5 and 30.2 despite the trailing junk. -/
theorem C9_parseCoordinates_spec_witness :
    "12.5abc, 30.2xyz" ≠ "" ∧ ∃ p q,
      splitComma "12.5abc, 30.2xyz".toList = [p, q] ∧
      parseFloatL (trimL p) = JSNum.fin (mkRat 25 2) ∧
      parseFloatL (trimL q) = JSNum.fin (mkRat 151 5) ∧
      (JSNum.fin (mkRat 25 2)).isNaN = false ∧
      (JSNum.fin (mkRat 151 5)).isNaN = false :=
  (C9_parseCoordinates_spec "12.5abc, 30.2xyz"
      (.fin (mkRat 25 2)) (.fin (mkRat 151 5))).1.mp (by decide)
